import Mathlib

set_option maxRecDepth 8000

/-!
Verification of the OrbyCoder tool-orchestration core.

This file gives a shallow embedding, in Lean 4, of the tool-augmented
prompt-orchestration layer of the OrbyCoder repository:

* `orby_coder/core/tools.py` — `ShellTool`, `WebSearchTool`, `ReadFileTool`;
* `orby_coder/utils/advanced.py` — `TerminalExecutor.safe_command`;
* `orby_coder/core/llm_provider.py` — the prompt intent detector
  (`LocalLLMProvider._enhanced_process`), the message assembler
  (`_prepare_messages` together with the instruction-splicing block of
  `chat_complete`), and `list_models`;
* `orby_coder/commands/chat.py` — the interactive `execute:`/`run:` handler.

Python strings are modelled as `List Char` (all strings relevant to the
claims are ASCII); Python `str.lower`, `str.strip`, substring membership
(`in`) and `str.split(sep, 1)[1]` are given explicit executable
definitions below.  Fallible operations (an `IndexError` from `split`)
are modelled with dedicated outcome constructors.  Each definition is
translated directly from the source file and line range it names.
-/

/-- Python `str.lower` restricted to ASCII text (every string the claims
touch is ASCII). -/
def lowerL (s : List Char) : List Char := s.map Char.toLower

/-- Whitespace characters recognised by Python `str.strip`. -/
def isSpaceCh (c : Char) : Bool :=
  c = ' ' || c = '\t' || c = '\n' || c = '\r' || c = '\x0b' || c = '\x0c'

/-- Python `str.strip`: drop leading and trailing whitespace. -/
def stripL (s : List Char) : List Char :=
  ((s.dropWhile isSpaceCh).reverse.dropWhile isSpaceCh).reverse

/-- Decides whether `n` is a leading prefix of `h` (Python `str.startswith`). -/
def isPrefixL : List Char → List Char → Bool
  | [], _ => true
  | _ :: _, [] => false
  | a :: as, b :: bs => a == b && isPrefixL as bs

/-- Python substring membership `needle in hay`. -/
def containsSub : List Char → List Char → Bool
  | [], needle => isPrefixL needle []
  | c :: t, needle => isPrefixL needle (c :: t) || containsSub t needle

/-- Python `hay.split(needle, 1)[1]`: everything after the first occurrence
of `needle`, or `none` when `needle` does not occur (in which case the
Python indexing `[1]` raises `IndexError`). -/
def dropAfterFirst (needle : List Char) : List Char → Option (List Char)
  | [] => if isPrefixL needle [] then some [] else none
  | c :: t =>
    if isPrefixL needle (c :: t) then some ((c :: t).drop needle.length)
    else dropAfterFirst needle t

namespace ShellTool

/-- Deny list from `ShellTool.validate_params`
(`orby_coder/core/tools.py`, lines 52-55). -/
def dangerous_commands : List (List Char) :=
  [("rm -rf /").data, ("rm -r /").data, ("format").data, ("mkfs").data,
   ("dd if=").data, (":()\x7b:&\x7d;:").data]

/-- Embedding of `ShellTool.validate_params` (`orby_coder/core/tools.py`,
lines 42-62) applied to a params dict that carries a string `command`:
returns the error message, or `none` when the command is accepted. -/
def validate_params (command : List Char) : Option (List Char) :=
  if stripL command = [] then some ("Command must be a non-empty string").data
  else
    match dangerous_commands.find? (fun d => containsSub (lowerL command) d) with
    | some d => some (("Dangerous command blocked: ").data ++ d)
    | none => none

end ShellTool

namespace TerminalExecutor

/-- Deny list from `TerminalExecutor.safe_command`
(`orby_coder/utils/advanced.py`, lines 79-91).  The entries are the
literal Python strings: `'rm -rf /\??'` holds a real backslash and two
question marks (the strings were written as regular expressions but the
function tests them with plain substring membership). -/
def dangerous_patterns : List (List Char) :=
  [("rm -rf /\\??").data, ("rm -r /\\??").data, ("rm - /\\??").data,
   ("dd if=/dev/").data, ("dd of=/dev/").data, ("mkfs").data,
   (">: /dev/").data, ("mv ~").data, ("chmod -R 777 /\\??").data,
   ("chown -R root /\\??").data, (":()\x7b:&\x7d;:").data]

/-- Softer list from `TerminalExecutor.safe_command`
(`orby_coder/utils/advanced.py`, lines 94-102); the loop over it is a
no-op (`pass`), so it never affects the result. -/
def cautious_patterns : List (List Char) :=
  [("rm -rf").data, ("rm -r").data, ("sudo").data, ("shutdown").data,
   ("reboot").data, ("halt").data, ("poweroff").data]

/-- Embedding of `TerminalExecutor.safe_command`
(`orby_coder/utils/advanced.py`, lines 67-117): lower-case and strip the
command, return `false` when any dangerous pattern occurs as a substring,
`true` otherwise. -/
def safe_command (command : List Char) : Bool :=
  let low := stripL (lowerL command)
  !(dangerous_patterns.any (fun p => containsSub low p))

end TerminalExecutor

/-- Outcome of the terminal-execution branch of
`LocalLLMProvider._enhanced_process` on one prompt:
`noAction` — nothing was run and no `terminal_execution` entry was added;
`crashed` — the extraction `user_prompt.split(indicator, 1)[1]` raised
`IndexError`; `blocked cmd` — `validate_params` rejected `cmd`, nothing
ran; `ran cmd` — `ShellTool.execute` was invoked on `cmd` and its result
stored under `terminal_execution`. -/
inductive TermAction
  | noAction
  | crashed
  | blocked (cmd : List Char)
  | ran (cmd : List Char)
deriving DecidableEq, Repr

/-- Explicit command indicators of `_enhanced_process`
(`orby_coder/core/llm_provider.py`, line 64). -/
def commandIndicators : List (List Char) :=
  [("execute:").data, ("run:").data, ("terminal:").data, ("command:").data]

/-- Natural-language terminal trigger phrases of `_enhanced_process`
(`orby_coder/core/llm_provider.py`, lines 56-60, tail of the list). -/
def naturalTerminalTriggers : List (List Char) :=
  [("can you run").data, ("please run").data, ("try running").data,
   ("run this command").data, ("execute this").data, ("terminal command").data]

/-- Full terminal trigger list (`orby_coder/core/llm_provider.py`,
lines 56-60): the explicit indicators followed by the natural phrases. -/
def terminalTriggers : List (List Char) :=
  commandIndicators ++ naturalTerminalTriggers

/-- Tail of the terminal branch after extraction: `if command:` guard,
then `validate_params`, then `ShellTool.execute`
(`orby_coder/core/llm_provider.py`, lines 68-82). -/
def handleCommand (cmd : List Char) : TermAction :=
  if cmd = [] then .noAction
  else
    match ShellTool.validate_params cmd with
    | some _ => .blocked cmd
    | none => .ran cmd

/-- Embedding of the terminal-execution branch of
`LocalLLMProvider._enhanced_process` (`orby_coder/core/llm_provider.py`,
lines 54-83).  Matching happens on the lower-cased prompt; the command is
extracted by splitting the original prompt on the (lower-case) indicator
string, which raises `IndexError` when the indicator does not occur
case-sensitively in the original. -/
def terminalDetect (enabled : Bool) (p : List Char) : TermAction :=
  if enabled then
    if terminalTriggers.any (fun t => containsSub (lowerL p) t) then
      match commandIndicators.find? (fun i => containsSub (lowerL p) i) with
      | some ind =>
        match dropAfterFirst ind p with
        | none => .crashed
        | some rest => handleCommand (stripL rest)
      | none => .noAction
    else .noAction
  else .noAction

/-- Embedding of the `execute:` / `run:` handler of the interactive chat
loop (`orby_coder/commands/chat.py`, lines 139-154; the full-screen UI in
`commands/ui.py` lines 471-476 is identical): when the lower-cased input
starts with either prefix, the command is `user_input[8:].strip()` and it
is executed exactly when `TerminalExecutor.safe_command` approves it. -/
def chatTerminalHandle (enabled : Bool) (input : List Char) : TermAction :=
  if isPrefixL ("execute:").data (lowerL input)
      || isPrefixL ("run:").data (lowerL input) then
    if enabled then
      let cmd := stripL (input.drop 8)
      if TerminalExecutor.safe_command cmd then .ran cmd else .blocked cmd
    else .noAction
  else .noAction

/-- Helper: a prefix of a list is a prefix of any extension of it. -/
theorem isPrefixL_append (n m x : List Char) (h : isPrefixL n m = true) :
    isPrefixL n (m ++ x) = true := by
  induction n generalizing m with
  | nil => simp [isPrefixL]
  | cons a as ih =>
    cases m with
    | nil => simp [isPrefixL] at h
    | cons b bs =>
      simp only [isPrefixL, Bool.and_eq_true] at h
      simp only [List.cons_append, isPrefixL, Bool.and_eq_true]
      exact ⟨h.1, ih bs h.2⟩

/-- Helper: a list contains any of its leading prefixes as a substring. -/
theorem containsSub_of_isPrefixL (h n : List Char) (hp : isPrefixL n h = true) :
    containsSub h n = true := by
  cases h with
  | nil => simpa [containsSub] using hp
  | cons c t => simp [containsSub, hp]

/-- Helper: every list is a prefix of itself. -/
theorem isPrefixL_refl (t : List Char) : isPrefixL t t = true := by
  induction t with
  | nil => rfl
  | cons a as ih => simp [isPrefixL, ih]

/-- Helper: substring membership for an explicitly split list. -/
theorem containsSub_append_mid (pre t post : List Char) :
    containsSub (pre ++ (t ++ post)) t = true := by
  induction pre with
  | nil =>
    rw [List.nil_append]
    exact containsSub_of_isPrefixL _ _ (isPrefixL_append t t post (isPrefixL_refl t))
  | cons c cs ih =>
    cases h : isPrefixL t (c :: (cs ++ (t ++ post))) with
    | true => simp [containsSub, h]
    | false => simpa [containsSub, h] using ih

/-- Claim C1 (status: code_bug).  For the command `"rm -rf /"` the claim
says every safety check classifies it as blocked and no execution path
runs it.  In the code, `ShellTool.validate_params` does block it, but
`TerminalExecutor.safe_command` returns `true` for it — its deny entry is
the literal eleven-character string `rm -rf /\??` (a regular expression
used as a plain substring), which `"rm -rf /"` does not contain — so the
interactive chat handler executes `rm -rf /` after its safety check
approves it.  This theorem evaluates the code at the failing input. -/
theorem C1_rm_rf_root_escapes_safe_command :
    TerminalExecutor.safe_command (("rm -rf /").data) = true
    ∧ chatTerminalHandle true (("execute:rm -rf /").data)
        = .ran (("rm -rf /").data)
    ∧ (ShellTool.validate_params (("rm -rf /").data)).isSome = true
    ∧ terminalDetect true (("execute: rm -rf /").data)
        = .blocked (("rm -rf /").data) :=
  ⟨by decide, by decide, by decide, by decide⟩

/-- Claim C2, counterexample.  The claim says the detector matches the
prefix case-insensitively and extracts the command from the original text
with its casing preserved; on the input `"Execute: echo hi"` that reading
demands the extracted command `"echo hi"`.  The code instead splits the
original text on the lower-case indicator `"execute:"`, which does not
occur in `"Execute: echo hi"`, so `split(...)[1]` raises `IndexError` and
nothing is extracted. -/
theorem C2_mixed_case_extraction_crashes :
    terminalDetect true (("Execute: echo hi").data) = .crashed
    ∧ terminalDetect true (("Execute: echo hi").data)
        ≠ .ran (("echo hi").data) :=
  ⟨by decide, by decide⟩

/-- Claim C2, amended.  Matching is case-insensitive, but extraction
splits the original prompt on the lower-case indicator, so it succeeds
exactly when that indicator occurs literally; for a prompt of the form
`"execute: " ++ rest` whose trimmed rest is a non-blank command passing
`validate_params`, the executed command is exactly the trimmed rest (in
particular `"execute: echo hi"` executes `"echo hi"`). -/
theorem C2_execute_prefix_extracts_trimmed_rest (cmd c : List Char)
    (hs : stripL cmd = c) (hne : c ≠ [])
    (hv : ShellTool.validate_params c = none) :
    terminalDetect true ((("execute: ").data) ++ cmd) = .ran c := by
  have h0 : terminalDetect true ((("execute: ").data) ++ cmd)
      = handleCommand (stripL cmd) := rfl
  rw [h0, hs]
  simp [handleCommand, hne, hv]

/-- Witness for `C2_execute_prefix_extracts_trimmed_rest` at the concrete
prompt `"execute: echo hi"`. -/
theorem C2_execute_prefix_witness :
    terminalDetect true (("execute: echo hi").data) = .ran (("echo hi").data) :=
  C2_execute_prefix_extracts_trimmed_rest (("echo hi").data) (("echo hi").data)
    (by decide) (by decide) (by decide)

/-- Claim C3 (status: confirmed).  A prompt that contains one of the
natural-language terminal trigger phrases but none of the explicit
indicators `execute:`, `run:`, `terminal:`, `command:` (as substrings of
its lower-cased form) causes no shell execution: the detector's terminal
branch ends in `noAction`, so `ShellTool.execute` is not invoked and no
`terminal_execution` entry is added to the context. -/
theorem C3_phrase_only_triggers_run_nothing (e : Bool) (p : List Char)
    (h1 : naturalTerminalTriggers.any (fun t => containsSub (lowerL p) t) = true)
    (h2 : commandIndicators.all (fun i => !(containsSub (lowerL p) i)) = true) :
    terminalDetect e p = .noAction := by
  cases e with
  | false => rfl
  | true =>
    have hfind : commandIndicators.find? (fun i => containsSub (lowerL p) i)
        = none := by
      rw [List.find?_eq_none]
      intro x hx
      simpa using List.all_eq_true.mp h2 x hx
    cases hgate : terminalTriggers.any (fun t => containsSub (lowerL p) t) with
    | false => simp [terminalDetect, hgate]
    | true => simp [terminalDetect, hgate, hfind]

/-- Witness for `C3_phrase_only_triggers_run_nothing` at the prompt
`"please run the test suite"`. -/
theorem C3_phrase_only_witness :
    terminalDetect true (("please run the test suite").data) = .noAction :=
  C3_phrase_only_triggers_run_nothing true (("please run the test suite").data)
    (by decide) (by decide)

/-- Outcome of the web-search branch of `_enhanced_process`:
`noAction` — no search executed; `crashed` — `IndexError` from the
extraction split; `searched q` — `WebSearchTool.execute` invoked with
query `q` and its result stored under `web_search`. -/
inductive SearchAction
  | noAction
  | crashed
  | searched (q : List Char)
deriving DecidableEq, Repr

/-- Explicit search indicators of `_enhanced_process`
(`orby_coder/core/llm_provider.py`, line 96). -/
def searchIndicators : List (List Char) :=
  [("search:").data, ("find:").data, ("lookup:").data, ("google:").data,
   ("web:").data]

/-- Search trigger phrases that are not explicit indicators
(`orby_coder/core/llm_provider.py`, lines 87-92, tail of the list). -/
def naturalSearchTriggers : List (List Char) :=
  [("can you search").data, ("please search").data, ("look up").data,
   ("what is").data, ("who is").data, ("when was").data, ("how does").data,
   ("why is").data, ("current status").data, ("latest news").data,
   ("recent updates").data]

/-- Full search trigger list (`orby_coder/core/llm_provider.py`,
lines 87-92): the explicit indicators followed by the natural phrases. -/
def searchTriggers : List (List Char) :=
  searchIndicators ++ naturalSearchTriggers

/-- Question-starter list of `_enhanced_process`
(`orby_coder/core/llm_provider.py`, lines 107-110).  The loop over it can
only reassign `search_query = user_prompt` when `search_query` already
equals `user_prompt`, so it never changes the result; it is kept here for
fidelity and is unused below. -/
def questionIndicators : List (List Char) :=
  [("what is").data, ("who is").data, ("when was").data, ("how does").data,
   ("why is").data, ("current").data, ("latest").data, ("recent").data,
   ("news").data, ("status").data]

/-- Tail of the search branch: the `if search_query:` guard before
`WebSearchTool.execute` (`orby_coder/core/llm_provider.py`,
lines 116-120). -/
def handleQuery (q : List Char) : SearchAction :=
  if q = [] then .noAction else .searched q

/-- Embedding of the web-search branch of
`LocalLLMProvider._enhanced_process` (`orby_coder/core/llm_provider.py`,
lines 85-120).  Matching happens on the lower-cased prompt; an explicit
indicator extracts by splitting the original prompt on the lower-case
indicator (raising `IndexError` when it does not occur case-sensitively);
with no indicator, the whole original prompt is the query. -/
def searchDetect (enabled : Bool) (p : List Char) : SearchAction :=
  if enabled then
    if searchTriggers.any (fun t => containsSub (lowerL p) t) then
      match searchIndicators.find? (fun i => containsSub (lowerL p) i) with
      | some ind =>
        match dropAfterFirst ind p with
        | none => .crashed
        | some rest => handleQuery (stripL rest)
      | none => handleQuery p
    else .noAction
  else .noAction

/-- Claim C4, counterexample.  On the input `"SEARCH: a find: b"` an
explicit search prefix occurs (`find:` literally, `search:`
case-insensitively), so the claim demands that the extracted query be the
text after the first matching prefix (`"a find: b"` or `"b"` depending on
the reading).  The code picks the indicator `search:` from the lower-cased
text, then splits the original on the lower-case string `"search:"`, which
does not occur there, so `split(...)[1]` raises `IndexError` and no query
is extracted at all. -/
theorem C4_mixed_case_search_crashes :
    searchDetect true (("SEARCH: a find: b").data) = .crashed
    ∧ searchDetect true (("SEARCH: a find: b").data) ≠ .searched (("b").data)
    ∧ searchDetect true (("SEARCH: a find: b").data)
        ≠ .searched (("a find: b").data) :=
  ⟨by decide, by decide, by decide⟩

/-- Claim C4, amended.  Indicators are matched on the lower-cased prompt
in the fixed order `search:`, `find:`, `lookup:`, `google:`, `web:`, and
the query is extracted by splitting the original prompt on the chosen
lower-case indicator (an `IndexError` is raised when that indicator does
not occur literally in the original).  For a prompt `"search: " ++ rest`
the query is `rest` trimmed; when no indicator occurs in the lower-cased
prompt but the question starter `"what is"` does, the query is the entire
original prompt. -/
theorem C4_search_query_extraction :
    (∀ q r : List Char, stripL q = r → r ≠ [] →
      searchDetect true ((("search: ").data) ++ q) = .searched r)
    ∧ (∀ p : List Char,
        searchIndicators.all (fun i => !(containsSub (lowerL p) i)) = true →
        containsSub (lowerL p) (("what is").data) = true → p ≠ [] →
        searchDetect true p = .searched p) := by
  constructor
  · intro q r hs hne
    have h0 : searchDetect true ((("search: ").data) ++ q)
        = handleQuery (stripL q) := rfl
    rw [h0, hs]
    simp [handleQuery, hne]
  · intro p hall hq hp
    have hfind : searchIndicators.find? (fun i => containsSub (lowerL p) i)
        = none := by
      rw [List.find?_eq_none]
      intro x hx
      simpa using List.all_eq_true.mp hall x hx
    have hgate : searchTriggers.any (fun t => containsSub (lowerL p) t)
        = true := by
      rw [List.any_eq_true]
      exact ⟨(("what is").data), by decide, hq⟩
    simp [searchDetect, hgate, hfind, handleQuery, hp]

/-- Witness for `C4_search_query_extraction`: the prompt
`"search: rust ownership"` yields the query `"rust ownership"`, and the
prompt `"what is the capital of France"` yields itself as the query. -/
theorem C4_search_query_witness :
    searchDetect true (("search: rust ownership").data)
      = .searched (("rust ownership").data)
    ∧ searchDetect true (("what is the capital of France").data)
      = .searched (("what is the capital of France").data) :=
  ⟨C4_search_query_extraction.1 (("rust ownership").data)
      (("rust ownership").data) (by decide) (by decide),
   C4_search_query_extraction.2 (("what is the capital of France").data)
      (by decide) (by decide) (by decide)⟩

/-- Decimal rendering of a natural number, as Python f-string interpolation
of an `int` produces it. -/
def natStr (n : Nat) : List Char := (Nat.repr n).data

/-- Decimal rendering of an integer (Python f-string interpolation). -/
def intStr (i : Int) : List Char := (toString i).data

/-- Helper: an append whose left part is non-empty is non-empty. -/
theorem append_ne_nil_left (a b : List Char) (h : a ≠ []) : a ++ b ≠ [] := by
  cases a with
  | nil => exact absurd rfl h
  | cons c t => simp

/-- One entry of the simulated search-result list of
`WebSearchTool.execute` (`orby_coder/core/tools.py`, lines 164-175). -/
structure SearchItem where
  title : List Char
  url : List Char
  snippet : List Char
deriving DecidableEq, Repr

/-- Result dictionary returned by the tools in `orby_coder/core/tools.py`.
Optional fields model optional dict keys: `none` means the key is absent
from the returned dict (none of the tool results in `tools.py` ever set a
`success` key; only `WebSearchTool` sets `sources`). -/
structure ToolResult where
  llmContent : List Char
  returnDisplay : List Char
  success : Option Bool := none
  sources : Option (List SearchItem) := none
deriving DecidableEq, Repr

/-- Possible outcomes of the `subprocess.run` call inside
`ShellTool.execute`: normal completion with captured stdout/stderr and
exit code, `subprocess.TimeoutExpired` after the hard 30-second bound, or
any other exception. -/
inductive ShellOutcome
  | finished (stdout stderr : List Char) (exitCode : Int)
  | timedOut
  | raised (msg : List Char)

namespace ShellTool

/-- Embedding of `ShellTool.execute` (`orby_coder/core/tools.py`,
lines 85-132), as a function of the command, the working directory and
the outcome of the spawned process.  Every branch returns normally; no
branch sets a `success` key. -/
def execute (command directory : List Char) (o : ShellOutcome) : ToolResult :=
  match o with
  | .finished out err code =>
    { llmContent :=
        ("Command: ").data ++ command
        ++ ("\nDirectory: ").data ++ directory
        ++ ("\nOutput: ").data ++ (if out = [] then ("(empty)").data else out)
        ++ ("\nError: ").data ++ (if err = [] then ("(none)").data else err)
        ++ ("\nExit Code: ").data ++ intStr code
        ++ ("\nSignal: (none)\nBackground PIDs: (none)\nProcess Group PGID: ").data
        ++ intStr code ++ ("\n").data
      returnDisplay :=
        out ++ (if err = [] then [] else ("\n[STDERR] ").data ++ err) }
  | .timedOut =>
    { llmContent := ("Command timed out: ").data ++ command
      returnDisplay := ("Command timed out after 30 seconds").data }
  | .raised m =>
    { llmContent := ("Error executing command: ").data ++ m
      returnDisplay := ("Error: ").data ++ m }

end ShellTool

/-- Claim C6, counterexample.  The claim says a timed-out execution
returns a result whose `success` field is `false`; the dict returned by
the timeout branch of `ShellTool.execute` has no `success` key at all. -/
theorem C6_timeout_result_lacks_success_field :
    (ShellTool.execute (("sleep 60").data) ((".").data) .timedOut).success
      ≠ some false := by decide

/-- Claim C6, amended.  On timeout `ShellTool.execute` returns normally
with `returnDisplay` exactly the timeout message naming the 30-second
bound and a non-empty `llmContent`; its result dicts carry no `success`
key for any outcome, so in particular none of them has `success=false`. -/
theorem C6_timeout_display_names_bound (command directory : List Char) :
    (ShellTool.execute command directory .timedOut).returnDisplay
      = ("Command timed out after 30 seconds").data
    ∧ (ShellTool.execute command directory .timedOut).llmContent ≠ []
    ∧ (∀ o : ShellOutcome, (ShellTool.execute command directory o).success
        = none) := by
  refine ⟨rfl, append_ne_nil_left _ _ (by decide), ?_⟩
  intro o
  cases o <;> rfl

namespace WebSearchTool

/-- One line of the `sources_text` list comprehension of
`WebSearchTool.execute` (`orby_coder/core/tools.py`, lines 178-181). -/
def sourceLine (i : Nat) (it : SearchItem) : List Char :=
  ("[").data ++ natStr (i + 1) ++ ("] ").data ++ it.title
  ++ (" (").data ++ it.url ++ (")").data

/-- Embedding of `WebSearchTool.execute` (`orby_coder/core/tools.py`,
lines 156-193).  The `now` argument models `datetime.now().isoformat()`,
which the source computes into a local `timestamp` variable and never
uses; no network access happens (the results are simulated in-process).
The returned dict has `llmContent`, `returnDisplay` and a two-element
`sources` list, and no `success` key. -/
def execute (query now : List Char) : ToolResult :=
  let search_results : List SearchItem :=
    [{ title := ("Search results for: ").data ++ query
       url := ("https://example.com/search?q=").data ++ query
       snippet := ("This is a simulated search result for \x27").data ++ query
         ++ ("\x27. In a real implementation, this would show actual web search results.").data },
     { title := ("Related information about ").data ++ query
       url := ("https://example.com/related/").data ++ query
       snippet := ("Additional context about \x27").data ++ query
         ++ ("\x27 that could help answer your question.").data }]
  let sources_text :=
    List.intercalate (("\n").data)
      (search_results.enum.map (fun e => sourceLine e.1 e.2))
  { llmContent :=
      ("Web search results for \"").data ++ query ++ ("\":\n\n").data
      ++ (search_results.getD 0 ⟨[], [], []⟩).snippet
      ++ ("\n\nSources:\n").data ++ sources_text
    returnDisplay :=
      ("Search results for \"").data ++ query ++ ("\" returned.").data
    sources := some search_results }

end WebSearchTool

/-- Claim C10 (status: confirmed).  For every non-empty query string,
`WebSearchTool.execute` returns (without raising and without network
access) a result whose `llmContent` and `returnDisplay` are non-empty and
whose `sources` list has exactly two entries, and the result does not
depend on the wall-clock timestamp the source reads and discards, so two
runs with the same query produce identical results. -/
theorem C10_web_search_deterministic (q t1 t2 : List Char) (hq : q ≠ []) :
    WebSearchTool.execute q t1 = WebSearchTool.execute q t2
    ∧ ((WebSearchTool.execute q t1).sources.getD []).length = 2
    ∧ (WebSearchTool.execute q t1).llmContent ≠ []
    ∧ (WebSearchTool.execute q t1).returnDisplay ≠ [] := by
  refine ⟨rfl, rfl, ?_, ?_⟩
  · apply append_ne_nil_left
    apply append_ne_nil_left
    apply append_ne_nil_left
    apply append_ne_nil_left
    apply append_ne_nil_left
    decide
  · apply append_ne_nil_left
    apply append_ne_nil_left
    decide

/-- Witness for `C10_web_search_deterministic` at the query `"lean"` and
two distinct timestamps. -/
theorem C10_web_search_witness :
    WebSearchTool.execute (("lean").data) (("t1").data)
      = WebSearchTool.execute (("lean").data) (("t2").data)
    ∧ ((WebSearchTool.execute (("lean").data) (("t1").data)).sources.getD
        []).length = 2
    ∧ (WebSearchTool.execute (("lean").data) (("t1").data)).llmContent ≠ []
    ∧ (WebSearchTool.execute (("lean").data) (("t1").data)).returnDisplay
        ≠ [] :=
  C10_web_search_deterministic (("lean").data) (("t1").data) (("t2").data)
    (by decide)

/-- Output of the `ReadFileTool.execute` embedding: `llmContent` and
`returnDisplay` are the values of the returned dict; `contentLines` and
`isTruncated` expose the local variables `content_lines` and
`is_truncated` of the source (`orby_coder/core/tools.py`, lines 236-262)
that determine them. -/
structure ReadOutput where
  contentLines : List (List Char)
  isTruncated : Bool
  llmContent : List Char
  returnDisplay : List Char
deriving DecidableEq, Repr

namespace ReadFileTool

/-- Embedding of the successful branch of `ReadFileTool.execute`
(`orby_coder/core/tools.py`, lines 226-267), as a function of the file
path, the list of lines `readlines()` produced (each with its trailing
newline), the 0-based `offset` and the optional `limit`.  A `limit` of
`some 0` is falsy in Python, so `if limit:` treats it like `none`:
the whole tail from `offset` is returned and nothing is marked
truncated.  `is_truncated` is set only when lines remain past
`offset + limit`; lines skipped before `offset` never set it. -/
def execute (path : List Char) (lines : List (List Char)) (offset : Nat)
    (limit : Option Nat) : ReadOutput :=
  let content_lines :=
    match limit with
    | some l => if l = 0 then lines.drop offset else (lines.drop offset).take l
    | none => lines.drop offset
  let content := content_lines.flatten
  let is_truncated :=
    match limit with
    | some l => if l = 0 then false else decide (lines.length > offset + l)
    | none => false
  let llm :=
    if is_truncated then
      ("\nIMPORTANT: The file content has been truncated.\n").data
      ++ ("Status: Showing lines ").data ++ natStr (offset + 1)
      ++ ("-").data ++ natStr (offset + content_lines.length)
      ++ (" of ").data ++ natStr lines.length ++ (" total lines.\n").data
      ++ ("Action: To read more of the file, you can use the \x27offset\x27 and \x27limit\x27 parameters in a subsequent \x27read_file\x27 call.\n\n").data
      ++ ("--- FILE CONTENT (truncated) ---\n").data ++ content
    else content
  let disp :=
    ("Read file: ").data ++ path
    ++ (if is_truncated then
          (" (lines ").data ++ natStr (offset + 1) ++ ("-").data
          ++ natStr (offset + content_lines.length) ++ (")").data
        else [])
  ⟨content_lines, is_truncated, llm, disp⟩

end ReadFileTool

/-- Claim C7, counterexample.  With `offset=3, limit=2` on a 5-line file
the requested range covers only lines 4-5, so it does not cover the full
file and the claim demands the result be marked truncated with a notice.
The code computes `is_truncated = len(lines) > offset + limit`, i.e.
`5 > 5 = false`: the requested lines are returned exactly, but the result
is not marked truncated and `llmContent` is the bare content with no
notice. -/
theorem C7_skipped_leading_lines_not_marked_truncated :
    (ReadFileTool.execute (("/tmp/f.txt").data)
        [("a\n").data, ("b\n").data, ("c\n").data, ("d\n").data, ("e").data]
        3 (some 2)).contentLines = [("d\n").data, ("e").data]
    ∧ (ReadFileTool.execute (("/tmp/f.txt").data)
        [("a\n").data, ("b\n").data, ("c\n").data, ("d\n").data, ("e").data]
        3 (some 2)).isTruncated = false
    ∧ (ReadFileTool.execute (("/tmp/f.txt").data)
        [("a\n").data, ("b\n").data, ("c\n").data, ("d\n").data, ("e").data]
        3 (some 2)).llmContent = ("d\ne").data :=
  ⟨by decide, by decide, by decide⟩

/-- Claim C7, amended.  With a non-zero `limit`, `ReadFileTool.execute`
returns exactly the lines in `[offset, offset+limit)` and marks the
result truncated precisely when further lines exist past `offset+limit`
(ranges that omit only lines before `offset` are not marked truncated);
in the truncated case the model-facing text carries the range notice: in
particular, with `offset=0, limit=2` on a 5-line file it returns exactly
the first two lines, marks the result truncated, and its `llmContent`
contains the notice text `"lines 1-2 of 5"`. -/
theorem C7_truncation_characterised (path : List Char)
    (lines : List (List Char)) (offset l : Nat) (hl : l ≠ 0) :
    ((ReadFileTool.execute path lines offset (some l)).contentLines
        = (lines.drop offset).take l)
    ∧ ((ReadFileTool.execute path lines offset (some l)).isTruncated
        = decide (lines.length > offset + l))
    ∧ (containsSub
        (ReadFileTool.execute (("/tmp/f.txt").data)
          [("a\n").data, ("b\n").data, ("c\n").data, ("d\n").data, ("e").data]
          0 (some 2)).llmContent
        (("lines 1-2 of 5").data) = true) := by
  refine ⟨?_, ?_, by decide⟩
  · show (if l = 0 then lines.drop offset else (lines.drop offset).take l)
        = (lines.drop offset).take l
    rw [if_neg hl]
  · show (if l = 0 then false else decide (lines.length > offset + l))
        = decide (lines.length > offset + l)
    rw [if_neg hl]

/-- Witness for `C7_truncation_characterised` at `offset=0, limit=2` on
the 5-line file with lines `a`, `b`, `c`, `d`, `e`. -/
theorem C7_truncation_witness :
    ((ReadFileTool.execute (("/tmp/f.txt").data)
        [("a\n").data, ("b\n").data, ("c\n").data, ("d\n").data, ("e").data]
        0 (some 2)).contentLines = [("a\n").data, ("b\n").data])
    ∧ ((ReadFileTool.execute (("/tmp/f.txt").data)
        [("a\n").data, ("b\n").data, ("c\n").data, ("d\n").data, ("e").data]
        0 (some 2)).isTruncated = true)
    ∧ (containsSub
        (ReadFileTool.execute (("/tmp/f.txt").data)
          [("a\n").data, ("b\n").data, ("c\n").data, ("d\n").data, ("e").data]
          0 (some 2)).llmContent
        (("lines 1-2 of 5").data) = true) := by
  have h := C7_truncation_characterised (("/tmp/f.txt").data)
    [("a\n").data, ("b\n").data, ("c\n").data, ("d\n").data, ("e").data]
    0 2 (by decide)
  refine ⟨?_, ?_, h.2.2⟩
  · rw [h.1]
    decide
  · rw [h.2.1]
    decide

/-- Message roles occurring in the conversation lists the assembler
handles (`role` values `"system"`, `"user"`, `"assistant"`). -/
inductive Role
  | system
  | user
  | assistant
deriving DecidableEq, Repr

/-- One message dict `\x7brole, content\x7d`.  The claims only involve
well-formed messages (dicts with a `role` and a string `content`), for
which the normalisation loop of `_prepare_messages` (lines 32-37) keeps
the very same dict object. -/
structure Msg where
  role : Role
  content : List Char
deriving DecidableEq, Repr

instance : Inhabited Msg := ⟨⟨.user, []⟩⟩

/-- Tool context built by `_enhanced_process`: at most one
`terminal_execution` entry and one `web_search` entry
(`orby_coder/core/llm_provider.py`, lines 82 and 120). -/
structure Context where
  terminal : Option ToolResult := none
  web : Option ToolResult := none
deriving DecidableEq, Repr

/-- Python truthiness of the context dict: `if context:` is false exactly
when the dict is empty. -/
def Context.isEmpty (c : Context) : Bool :=
  c.terminal.isNone && c.web.isNone

/-- Instruction text appended by `chat_complete`
(`orby_coder/core/llm_provider.py`, lines 147-162): the base header plus
one block per context key present. -/
def toolInstructions (c : Context) : List Char :=
  ("\n\n[TOOL USAGE INSTRUCTIONS]\nYou have access to the following tools that can be used when appropriate:\n").data
  ++ (if c.terminal.isSome then
        ("TERMINAL EXECUTION: You can execute commands to verify code, run tests, or gather system information.\nUsage: Prefix your response with TERMINAL: followed by the command to execute.\n").data
      else [])
  ++ (if c.web.isSome then
        ("WEB SEARCH: You can search the web for current information or topics you\x27re uncertain about.\nUsage: Prefix your response with SEARCH: followed by your search query.\n").data
      else [])

/-- Rendering of one tool-result dict inside the context message.  This
stands for the Python `json.dumps` serialisation; no claim depends on
this exact text, only on the role and position of the message that
carries it. -/
def toolResultJson (r : ToolResult) : List Char :=
  ("\x7b \"llmContent\": \"").data ++ r.llmContent
  ++ ("\", \"returnDisplay\": \"").data ++ r.returnDisplay ++ ("\" \x7d").data

/-- Rendering of the whole context dict (stands for
`json.dumps(context, indent=2)`; see `toolResultJson`). -/
def ctxJson (c : Context) : List Char :=
  ("\x7b ").data
  ++ (match c.terminal with
      | some r => ("\"terminal_execution\": ").data ++ toolResultJson r
      | none => [])
  ++ (match c.web with
      | some r => ("\"web_search\": ").data ++ toolResultJson r
      | none => [])
  ++ (" \x7d").data

/-- Content of the context message inserted by `_prepare_messages`
(`orby_coder/core/llm_provider.py`, line 42). -/
def ctxPayload (c : Context) : List Char :=
  ("Additional context:\n").data ++ ctxJson c

/-- Heap of message objects.  Python dicts are mutable objects shared by
reference; a message list is modelled as a list of addresses into this
heap, so that in-place mutation of a dict is visible through every list
that holds a reference to it. -/
structure Heap where
  msgs : List Msg
deriving Repr

/-- Dereference an address.  Addresses outside the heap never arise from
the modelled code; they read as a default user message. -/
def readMsg (h : Heap) (a : Nat) : Msg :=
  (h.msgs[a]?).getD ⟨.user, []⟩

/-- Python `list.insert(1, x)`: before the second element, clamped to the
end for shorter lists. -/
def insertAt1 {α : Type} (x : α) : List α → List α
  | [] => [x]
  | m :: rest => m :: x :: rest

/-- First address in the list whose message has the system role — the
`for i, msg in enumerate(prepared_messages)` search of `chat_complete`
(`orby_coder/core/llm_provider.py`, lines 165-171). -/
def findFirstSystem (h : Heap) : List Nat → Option Nat
  | [] => none
  | a :: t =>
    if (readMsg h a).role = .system then some a else findFirstSystem h t

/-- Embedding of the message assembly done by `chat_complete`
(`orby_coder/core/llm_provider.py`, lines 143-175), combining
`_prepare_messages` (lines 28-45) with the instruction-splicing block.
With a non-empty context it first allocates the context message and
inserts its reference at position 1 of a fresh list (the elements of the
fresh list are the caller's message objects, not copies), then appends
the instruction text in place to the first system message found, or
prepends a newly allocated system message when there is none.  Returns
the new reference list and the updated heap. -/
def chat_complete_assemble (cfg : List Char) (refs : List Nat) (h : Heap)
    (c : Context) : List Nat × Heap :=
  if c.isEmpty then (refs, h)
  else
    let refs1 := insertAt1 h.msgs.length refs
    let h1 : Heap := ⟨h.msgs ++ [⟨.user, ctxPayload c⟩]⟩
    match findFirstSystem h1 refs1 with
    | some j =>
      let m := readMsg h1 j
      (refs1, ⟨h1.msgs.set j ⟨m.role, m.content ++ toolInstructions c⟩⟩)
    | none =>
      (h1.msgs.length :: refs1,
       ⟨h1.msgs ++ [⟨.system, cfg ++ toolInstructions c⟩]⟩)

/-- Sequence of message values actually sent to the backend: the
assembled reference list read through the final heap. -/
def assembledMsgs (cfg : List Char) (refs : List Nat) (h : Heap)
    (c : Context) : List Msg :=
  ((chat_complete_assemble cfg refs h c).1).map
    (readMsg (chat_complete_assemble cfg refs h c).2)

/-- Helper: projection of a heap literal. -/
theorem Heap.msgs_mk (L : List Msg) : (Heap.mk L).msgs = L := rfl

/-- Helper: reading below the old length is unaffected by an append. -/
theorem readMsg_append_lt (L : List Msg) (x : Msg) (a : Nat)
    (ha : a < L.length) : readMsg ⟨L ++ [x]⟩ a = readMsg ⟨L⟩ a := by
  simp [readMsg, List.getElem?_append, ha]

/-- Helper: reading the freshly appended address yields the new message. -/
theorem readMsg_append_self (L : List Msg) (x : Msg) :
    readMsg ⟨L ++ [x]⟩ L.length = x := by
  simp [readMsg, List.getElem?_concat_length]

/-- Helper: reading a written address yields the written message. -/
theorem readMsg_set_self (L : List Msg) (a : Nat) (m : Msg)
    (ha : a < L.length) : readMsg ⟨L.set a m⟩ a = m := by
  simp [readMsg, List.getElem?_set_self ha]

/-- Helper: writing one address leaves every other address unchanged. -/
theorem readMsg_set_ne (L : List Msg) (a b : Nat) (m : Msg) (hab : a ≠ b) :
    readMsg ⟨L.set a m⟩ b = readMsg ⟨L⟩ b := by
  simp [readMsg, List.getElem?_set_ne hab]

/-- Helper: the address found by `findFirstSystem` holds a system-role
message. -/
theorem findFirstSystem_role (h : Heap) (l : List Nat) (a : Nat)
    (hf : findFirstSystem h l = some a) : (readMsg h a).role = .system := by
  induction l with
  | nil => simp [findFirstSystem] at hf
  | cons b t ih =>
    by_cases hb : (readMsg h b).role = .system
    · rw [findFirstSystem, if_pos hb] at hf
      cases hf
      exact hb
    · rw [findFirstSystem, if_neg hb] at hf
      exact ih hf

/-- Helper: with no system-role message among the addresses, the search
fails. -/
theorem findFirstSystem_eq_none (h : Heap) (l : List Nat)
    (hl : ∀ b ∈ l, (readMsg h b).role ≠ .system) :
    findFirstSystem h l = none := by
  induction l with
  | nil => rfl
  | cons b t ih =>
    rw [findFirstSystem, if_neg (hl b (List.mem_cons_self b t))]
    exact ih (fun x hx => hl x (List.mem_cons_of_mem b hx))


/-- Example context holding one terminal-execution result, used by the
concrete instances below. -/
def exampleCtx : Context :=
  { terminal := some { llmContent := ("Command: ls").data,
                       returnDisplay := ("ok").data },
    web := none }

/-- Claim C5, counterexample.  With a non-empty context and an input list
holding no system message (here one user message `"hi"` at address 0),
the claimed order `[system(+instructions), context-as-user, original user
message]` does not hold: the context reference is inserted at position 1
before the new system message is prepended at position 0, so the
assembled order is `[system(+instructions), original user,
context-as-user]`. -/
theorem C5_no_system_message_order_differs :
    assembledMsgs (("You are Orby.").data) [0] ⟨[⟨.user, ("hi").data⟩]⟩
        exampleCtx
      = [⟨.system, ("You are Orby.").data ++ toolInstructions exampleCtx⟩,
         ⟨.user, ("hi").data⟩, ⟨.user, ctxPayload exampleCtx⟩]
    ∧ assembledMsgs (("You are Orby.").data) [0] ⟨[⟨.user, ("hi").data⟩]⟩
        exampleCtx
      ≠ [⟨.system, ("You are Orby.").data ++ toolInstructions exampleCtx⟩,
         ⟨.user, ctxPayload exampleCtx⟩, ⟨.user, ("hi").data⟩] :=
  ⟨by decide, by decide⟩

/-- Claim C5, amended.  With a non-empty context: when the first input
message is the only system message, the assembled sequence is
`[system(+instructions), context-as-user, remaining original messages]`
exactly as claimed; when the input holds no system message, the new
system message carrying the configured system prompt plus instructions is
prepended only after the context insertion already happened, so the
assembled sequence is `[new system(+instructions), first original
message, context-as-user, remaining original messages]`. -/
theorem C5_assembled_order :
    (∀ (cfg s : List Char) (a : Nat) (rest : List Nat) (L : List Msg)
        (c : Context),
      c.isEmpty = false → a < L.length → readMsg ⟨L⟩ a = ⟨.system, s⟩ →
      (∀ b ∈ rest, b < L.length) → a ∉ rest →
      assembledMsgs cfg (a :: rest) ⟨L⟩ c
        = ⟨.system, s ++ toolInstructions c⟩ :: ⟨.user, ctxPayload c⟩
          :: rest.map (readMsg ⟨L⟩))
    ∧ (∀ (cfg : List Char) (a : Nat) (rest : List Nat) (L : List Msg)
        (c : Context),
      c.isEmpty = false →
      (∀ b ∈ a :: rest, b < L.length ∧ (readMsg ⟨L⟩ b).role ≠ .system) →
      assembledMsgs cfg (a :: rest) ⟨L⟩ c
        = ⟨.system, cfg ++ toolInstructions c⟩ :: readMsg ⟨L⟩ a
          :: ⟨.user, ctxPayload c⟩ :: rest.map (readMsg ⟨L⟩)) := by
  constructor
  · intro cfg s a rest L c hc ha hsys hrest hnot
    have hrole : (readMsg ⟨L ++ [(⟨.user, ctxPayload c⟩ : Msg)]⟩ a).role
        = .system := by
      rw [readMsg_append_lt L _ a ha, hsys]
    have hfs : findFirstSystem ⟨L ++ [(⟨.user, ctxPayload c⟩ : Msg)]⟩
        (a :: L.length :: rest) = some a := by
      rw [findFirstSystem, if_pos hrole]
    have hlen : a < (L ++ [(⟨.user, ctxPayload c⟩ : Msg)]).length := by
      simp only [List.length_append, List.length_cons, List.length_nil]
      omega
    have hpair : chat_complete_assemble cfg (a :: rest) ⟨L⟩ c
        = (a :: L.length :: rest,
           (⟨(L ++ [(⟨.user, ctxPayload c⟩ : Msg)]).set a
             (⟨.system, s ++ toolInstructions c⟩ : Msg)⟩ : Heap)) := by
      rw [chat_complete_assemble, if_neg (by simp [hc])]
      simp only [Heap.msgs_mk, insertAt1, hfs]
      rw [readMsg_append_lt L _ a ha, hsys]
    rw [assembledMsgs, hpair]
    simp only [List.map_cons]
    rw [readMsg_set_self _ a _ hlen,
        readMsg_set_ne _ a L.length _ (Nat.ne_of_lt ha),
        readMsg_append_self L _]
    simp only [List.cons.injEq, true_and]
    apply List.map_congr_left
    intro b hb
    rw [readMsg_set_ne _ a b _ (fun hEq => hnot (hEq ▸ hb)),
        readMsg_append_lt L _ b (hrest b hb)]
  · intro cfg a rest L c hc hall
    have hfs : findFirstSystem ⟨L ++ [(⟨.user, ctxPayload c⟩ : Msg)]⟩
        (a :: L.length :: rest) = none := by
      apply findFirstSystem_eq_none
      intro b hb
      rcases List.mem_cons.mp hb with rfl | hb1
      · rw [readMsg_append_lt L _ b (hall b (List.mem_cons_self b rest)).1]
        exact (hall b (List.mem_cons_self b rest)).2
      · rcases List.mem_cons.mp hb1 with rfl | hb2
        · rw [readMsg_append_self L _]
          simp
        · rw [readMsg_append_lt L _ b
            (hall b (List.mem_cons_of_mem a hb2)).1]
          exact (hall b (List.mem_cons_of_mem a hb2)).2
    have hpair : chat_complete_assemble cfg (a :: rest) ⟨L⟩ c
        = ((L ++ [(⟨.user, ctxPayload c⟩ : Msg)]).length
             :: a :: L.length :: rest,
           (⟨(L ++ [(⟨.user, ctxPayload c⟩ : Msg)])
             ++ [(⟨.system, cfg ++ toolInstructions c⟩ : Msg)]⟩ : Heap)) := by
      rw [chat_complete_assemble, if_neg (by simp [hc])]
      simp only [Heap.msgs_mk, insertAt1, hfs]
    rw [assembledMsgs, hpair]
    simp only [List.map_cons]
    have ha0 : a < L.length := (hall a (List.mem_cons_self a rest)).1
    have ha1 : a < (L ++ [(⟨.user, ctxPayload c⟩ : Msg)]).length := by
      simp only [List.length_append, List.length_cons, List.length_nil]
      omega
    have hlen2 : L.length
        < (L ++ [(⟨.user, ctxPayload c⟩ : Msg)]).length := by
      simp only [List.length_append, List.length_cons, List.length_nil]
      omega
    rw [readMsg_append_self (L ++ [(⟨.user, ctxPayload c⟩ : Msg)]) _,
        readMsg_append_lt _ _ a ha1, readMsg_append_lt L _ a ha0,
        readMsg_append_lt _ _ L.length hlen2, readMsg_append_self L _]
    simp only [List.cons.injEq, true_and]
    apply List.map_congr_left
    intro b hb
    have hbl : b < L.length := (hall b (List.mem_cons_of_mem a hb)).1
    have hb1 : b < (L ++ [(⟨.user, ctxPayload c⟩ : Msg)]).length := by
      simp only [List.length_append, List.length_cons, List.length_nil]
      omega
    rw [readMsg_append_lt _ _ b hb1, readMsg_append_lt L _ b hbl]

/-- Witness for `C5_assembled_order`: part one at the input
`[system "be brief", user "hi"]`, part two at an input whose only
referenced message is `user "hi"`, both with the example context. -/
theorem C5_assembled_order_witness :
    assembledMsgs (("You are Orby.").data) [0, 1]
        ⟨[⟨.system, ("be brief").data⟩, ⟨.user, ("hi").data⟩]⟩ exampleCtx
      = [⟨.system, ("be brief").data ++ toolInstructions exampleCtx⟩,
         ⟨.user, ctxPayload exampleCtx⟩, ⟨.user, ("hi").data⟩]
    ∧ assembledMsgs (("You are Orby.").data) [2]
        ⟨[⟨.system, ("unused").data⟩, ⟨.user, ("a").data⟩,
          ⟨.user, ("hi").data⟩]⟩ exampleCtx
      = [⟨.system, ("You are Orby.").data ++ toolInstructions exampleCtx⟩,
         ⟨.user, ("hi").data⟩, ⟨.user, ctxPayload exampleCtx⟩] := by
  constructor
  · rw [C5_assembled_order.1 (("You are Orby.").data) (("be brief").data) 0 [1]
        [⟨.system, ("be brief").data⟩, ⟨.user, ("hi").data⟩] exampleCtx
        (by decide) (by decide) (by decide) (by decide) (by decide)]
    decide
  · rw [C5_assembled_order.2 (("You are Orby.").data) 2 []
        [⟨.system, ("unused").data⟩, ⟨.user, ("a").data⟩,
         ⟨.user, ("hi").data⟩] exampleCtx (by decide) (by decide)]
    decide

/-- Claim C8, counterexample.  The claim says no message object in the
caller-supplied list is mutated.  The message lists share their dict
objects with the caller (`prepared.append(msg)`), and
`prepared_messages[i]['content'] += tool_instructions` writes through the
shared reference: after assembly with a non-empty context, the caller's
system message object (address 0) no longer holds its original content. -/
theorem C8_system_message_mutated_in_place :
    readMsg (chat_complete_assemble (("You are Orby.").data) [0, 1]
        ⟨[⟨.system, ("be concise").data⟩, ⟨.user, ("hi").data⟩]⟩
        exampleCtx).2 0
      ≠ readMsg ⟨[⟨.system, ("be concise").data⟩, ⟨.user, ("hi").data⟩]⟩ 0 :=
  by decide

/-- Helper: the address found by `findFirstSystem` belongs to the list. -/
theorem findFirstSystem_mem (h : Heap) (l : List Nat) (a : Nat)
    (hf : findFirstSystem h l = some a) : a ∈ l := by
  induction l with
  | nil => simp [findFirstSystem] at hf
  | cons b t ih =>
    by_cases hb : (readMsg h b).role = .system
    · rw [findFirstSystem, if_pos hb] at hf
      cases hf
      exact List.mem_cons_self a t
    · rw [findFirstSystem, if_neg hb] at hf
      exact List.mem_cons_of_mem b (ih hf)

/-- Helper: the system search is blind to an appended message while the
addresses it scans stay below the old length. -/
theorem findFirstSystem_append (L : List Msg) (x : Msg) (l : List Nat)
    (hv : ∀ b ∈ l, b < L.length) :
    findFirstSystem ⟨L ++ [x]⟩ l = findFirstSystem ⟨L⟩ l := by
  induction l with
  | nil => rfl
  | cons b t ih =>
    rw [findFirstSystem, findFirstSystem,
        readMsg_append_lt L x b (hv b (List.mem_cons_self b t))]
    by_cases hb : (readMsg ⟨L⟩ b).role = .system
    · rw [if_pos hb, if_pos hb]
    · rw [if_neg hb, if_neg hb]
      exact ih (fun y hy => hv y (List.mem_cons_of_mem b hy))

/-- Helper: inserting the freshly appended non-system context message at
position 1 does not change which address the system search finds. -/
theorem findFirstSystem_insertAt1 (L : List Msg) (x : Msg)
    (hx : x.role ≠ .system) (l : List Nat)
    (hv : ∀ b ∈ l, b < L.length) :
    findFirstSystem ⟨L ++ [x]⟩ (insertAt1 L.length l)
      = findFirstSystem ⟨L⟩ l := by
  cases l with
  | nil =>
    simp only [insertAt1, findFirstSystem]
    rw [readMsg_append_self L x, if_neg hx]
  | cons b t =>
    simp only [insertAt1]
    rw [findFirstSystem,
        readMsg_append_lt L x b (hv b (List.mem_cons_self b t))]
    by_cases hb : (readMsg ⟨L⟩ b).role = .system
    · rw [if_pos hb, findFirstSystem, if_pos hb]
    · rw [if_neg hb, findFirstSystem, readMsg_append_self L x, if_neg hx,
          findFirstSystem_append L x t
            (fun y hy => hv y (List.mem_cons_of_mem b hy)),
          findFirstSystem, if_neg hb]

/-- Helper: the instruction text is never empty (its fixed header is
non-empty whatever the context holds). -/
theorem toolInstructions_ne_nil (c : Context) : toolInstructions c ≠ [] :=
  append_ne_nil_left _ _ (append_ne_nil_left _ _ (by decide))

/-- Claim C8, amended.  The assembler builds a fresh list, but its
elements are the caller's message objects, and the instruction append
writes through the shared reference.  Precisely: with an empty context
the assembler returns the reference list and heap unchanged; with a
non-empty context, if the caller's list has a first system-role message
(at address `j`), that very object is mutated in place — afterwards it
reads as a system message whose content is the old content with the
tool-usage instructions appended, so it differs from the caller's
original — while every other message object is left unchanged; and if
the caller's list holds no system message, every message object is left
unchanged (the instructions go onto a newly allocated system message). -/
theorem C8_only_first_system_mutated (cfg : List Char) (refs : List Nat)
    (L : List Msg) (c : Context) (hv : ∀ b ∈ refs, b < L.length) :
    (c.isEmpty = true →
      chat_complete_assemble cfg refs ⟨L⟩ c = (refs, ⟨L⟩))
    ∧ (c.isEmpty = false → ∀ j, findFirstSystem ⟨L⟩ refs = some j →
        readMsg (chat_complete_assemble cfg refs ⟨L⟩ c).2 j
            = ⟨.system, (readMsg ⟨L⟩ j).content ++ toolInstructions c⟩
        ∧ readMsg (chat_complete_assemble cfg refs ⟨L⟩ c).2 j
            ≠ readMsg ⟨L⟩ j
        ∧ (∀ a, a < L.length → a ≠ j →
            readMsg (chat_complete_assemble cfg refs ⟨L⟩ c).2 a
              = readMsg ⟨L⟩ a))
    ∧ (c.isEmpty = false → findFirstSystem ⟨L⟩ refs = none →
        ∀ a, a < L.length →
          readMsg (chat_complete_assemble cfg refs ⟨L⟩ c).2 a
            = readMsg ⟨L⟩ a) := by
  refine ⟨?_, ?_, ?_⟩
  · intro hc
    rw [chat_complete_assemble, if_pos hc]
  · intro hc j hj
    have hjmem : j ∈ refs := findFirstSystem_mem ⟨L⟩ refs j hj
    have hjlt : j < L.length := hv j hjmem
    have hjrole : (readMsg ⟨L⟩ j).role = .system :=
      findFirstSystem_role ⟨L⟩ refs j hj
    have hj1 : j < (L ++ [(⟨.user, ctxPayload c⟩ : Msg)]).length := by
      simp only [List.length_append, List.length_cons, List.length_nil]
      omega
    have hfs : findFirstSystem ⟨L ++ [(⟨.user, ctxPayload c⟩ : Msg)]⟩
        (insertAt1 L.length refs) = some j := by
      rw [findFirstSystem_insertAt1 L _ (by simp) refs hv]
      exact hj
    have hmain : readMsg (chat_complete_assemble cfg refs ⟨L⟩ c).2 j
        = ⟨.system, (readMsg ⟨L⟩ j).content ++ toolInstructions c⟩ := by
      rw [chat_complete_assemble, if_neg (by simp [hc])]
      simp only [Heap.msgs_mk, hfs]
      rw [readMsg_set_self _ j _ hj1, readMsg_append_lt L _ j hjlt, hjrole]
    refine ⟨hmain, ?_, ?_⟩
    · rw [hmain]
      intro hEq
      have hcontent : (readMsg ⟨L⟩ j).content ++ toolInstructions c
          = (readMsg ⟨L⟩ j).content := congrArg Msg.content hEq
      have hlenEq := congrArg List.length hcontent
      rw [List.length_append] at hlenEq
      have : (toolInstructions c).length = 0 := by omega
      exact toolInstructions_ne_nil c (List.length_eq_zero.mp this)
    · intro a halt haj
      have ha1 : a < (L ++ [(⟨.user, ctxPayload c⟩ : Msg)]).length := by
        simp only [List.length_append, List.length_cons, List.length_nil]
        omega
      rw [chat_complete_assemble, if_neg (by simp [hc])]
      simp only [Heap.msgs_mk, hfs]
      rw [readMsg_set_ne _ j a _ (fun hEq => haj hEq.symm),
          readMsg_append_lt L _ a halt]
  · intro hc hj a halt
    have hfs : findFirstSystem ⟨L ++ [(⟨.user, ctxPayload c⟩ : Msg)]⟩
        (insertAt1 L.length refs) = none := by
      rw [findFirstSystem_insertAt1 L _ (by simp) refs hv]
      exact hj
    have ha1 : a < (L ++ [(⟨.user, ctxPayload c⟩ : Msg)]).length := by
      simp only [List.length_append, List.length_cons, List.length_nil]
      omega
    rw [chat_complete_assemble, if_neg (by simp [hc])]
    simp only [Heap.msgs_mk, hfs]
    rw [readMsg_append_lt _ _ a ha1, readMsg_append_lt L _ a halt]

/-- Witness for `C8_only_first_system_mutated` on the two-message heap
`[system "be concise", user "hi"]` with references `[0, 1]`: with the
example context the system message at address 0 is mutated by appending
the instructions while the user message at address 1 is unchanged, and
with the empty context nothing changes at all. -/
theorem C8_only_first_system_mutated_witness :
    readMsg (chat_complete_assemble (("You are Orby.").data) [0, 1]
        ⟨[⟨.system, ("be concise").data⟩, ⟨.user, ("hi").data⟩]⟩
        exampleCtx).2 0
      = ⟨.system,
         (readMsg ⟨[⟨.system, ("be concise").data⟩,
            ⟨.user, ("hi").data⟩]⟩ 0).content
           ++ toolInstructions exampleCtx⟩
    ∧ readMsg (chat_complete_assemble (("You are Orby.").data) [0, 1]
        ⟨[⟨.system, ("be concise").data⟩, ⟨.user, ("hi").data⟩]⟩
        exampleCtx).2 0
      ≠ readMsg ⟨[⟨.system, ("be concise").data⟩, ⟨.user, ("hi").data⟩]⟩ 0
    ∧ readMsg (chat_complete_assemble (("You are Orby.").data) [0, 1]
        ⟨[⟨.system, ("be concise").data⟩, ⟨.user, ("hi").data⟩]⟩
        exampleCtx).2 1
      = readMsg ⟨[⟨.system, ("be concise").data⟩, ⟨.user, ("hi").data⟩]⟩ 1
    ∧ chat_complete_assemble (("You are Orby.").data) [0, 1]
        ⟨[⟨.system, ("be concise").data⟩, ⟨.user, ("hi").data⟩]⟩
        { terminal := none, web := none }
      = ([0, 1],
         ⟨[⟨.system, ("be concise").data⟩, ⟨.user, ("hi").data⟩]⟩) := by
  have h := C8_only_first_system_mutated (("You are Orby.").data) [0, 1]
    [⟨.system, ("be concise").data⟩, ⟨.user, ("hi").data⟩] exampleCtx
    (by decide)
  have h2 := h.2.1 (by decide) 0 (by decide)
  have h0 := C8_only_first_system_mutated (("You are Orby.").data) [0, 1]
    [⟨.system, ("be concise").data⟩, ⟨.user, ("hi").data⟩]
    { terminal := none, web := none } (by decide)
  exact ⟨h2.1, h2.2.1, h2.2.2 1 (by decide) (by decide), h0.1 (by decide)⟩

/-- One entry of a backend model-listing response: either a dict holding
the model name under some of the keys `name`, `model`, `id` (an absent
key is `none`), or a non-dict value, which the code stringifies. -/
inductive ModelEntry
  | obj (name model id : Option (List Char))
  | raw (s : List Char)
deriving DecidableEq, Repr

/-- Python `a or b` over optional strings: `a` unless it is missing or
empty (both `None` and `""` are falsy). -/
def pyOr (a b : Option (List Char)) : Option (List Char) :=
  match a with
  | some s => if s = [] then b else some s
  | none => b

/-- Python truthiness guard `if name:` over an optional string. -/
def truthy (o : Option (List Char)) : Option (List Char) :=
  match o with
  | some s => if s = [] then none else some s
  | none => none

/-- Name extraction for one Ollama entry
(`orby_coder/core/llm_provider.py`, lines 301-309): a dict entry tries
`name`, then `model`, then `id` and is skipped when all are missing or
empty; a non-dict entry is stringified and always kept. -/
def entryNameOllama : ModelEntry → Option (List Char)
  | .obj n m i => truthy (pyOr n (pyOr m i))
  | .raw s => some s

/-- Name extraction for one LM Studio entry
(`orby_coder/core/llm_provider.py`, lines 334-342): key order `id`,
`name`, `model`. -/
def entryNameLms : ModelEntry → Option (List Char)
  | .obj n m i => truthy (pyOr i (pyOr n m))
  | .raw s => some s

/-- Outcome of `ollama.list()`: an exception, or a response that may or
may not hold a `models` collection. -/
inductive OllamaListResult
  | exn (msg : List Char)
  | ok (models : Option (List ModelEntry))

/-- Embedding of the Ollama branch of `LocalLLMProvider.list_models`
(`orby_coder/core/llm_provider.py`, lines 293-317): every exception and
every unrecognised shape falls back to the configured default model. -/
def list_models_ollama (defaultModel : List Char) :
    OllamaListResult → List (List Char)
  | .exn _ => [defaultModel]
  | .ok none => [defaultModel]
  | .ok (some entries) =>
    let model_names := entries.filterMap entryNameOllama
    if model_names = [] then [defaultModel] else model_names

/-- Body of a decoded LM Studio `/models` response: the optional `data`
and `models` keys (`orby_coder/core/llm_provider.py`, lines 326-331;
`data` wins when both are present). -/
structure LmsBody where
  dataEntries : Option (List ModelEntry)
  modelsEntries : Option (List ModelEntry)
deriving DecidableEq, Repr

/-- Outcome of `requests.get(f"...{base_url}/models")`: a network error
(`requests.exceptions.RequestException`), any other exception (for
example a JSON decoding failure), or an HTTP response with status code
and decoded body. -/
inductive LmsListResult
  | netErr
  | exn (msg : List Char)
  | resp (status : Nat) (body : LmsBody)

/-- Embedding of the LM Studio branch of `LocalLLMProvider.list_models`
(`orby_coder/core/llm_provider.py`, lines 319-354). -/
def list_models_lmstudio (defaultModel : List Char) :
    LmsListResult → List (List Char)
  | .netErr => [defaultModel]
  | .exn _ => [defaultModel]
  | .resp status body =>
    if status = 200 then
      let models_data :=
        match body.dataEntries with
        | some l => l
        | none =>
          match body.modelsEntries with
          | some l => l
          | none => []
      let model_names := models_data.filterMap entryNameLms
      if model_names = [] then [defaultModel] else model_names
    else [defaultModel]

/-- Embedding of the final branch of `list_models`
(`orby_coder/core/llm_provider.py`, lines 355-357): any backend other
than the two supported ones yields the default model. -/
def list_models_other (defaultModel : List Char) : List (List Char) :=
  [defaultModel]

/-- Claim C9 (status: confirmed).  `list_models` is total (the embedding
covers every outcome, so no path raises): exceptions, missing or
unrecognised response shapes, network errors and non-200 statuses all
yield the one-element list holding the configured default model; both
backends tolerate at least two response shapes (Ollama: names under
`name` or under `model`; LM Studio: entries under `data` or under
`models`, names under `id` or under `name`); and the result list is never
empty. -/
theorem C9_list_models_fallbacks :
    (∀ d msg, list_models_ollama d (.exn msg) = [d])
    ∧ (∀ d, list_models_ollama d (.ok none) = [d])
    ∧ (∀ d r, list_models_ollama d r ≠ [])
    ∧ (list_models_ollama (("llama3").data)
        (.ok (some [.obj (some (("m1").data)) none none,
                    .obj none (some (("m2").data)) none]))
        = [("m1").data, ("m2").data])
    ∧ (∀ d, list_models_lmstudio d .netErr = [d])
    ∧ (∀ d msg, list_models_lmstudio d (.exn msg) = [d])
    ∧ (∀ d status body, status ≠ 200 →
        list_models_lmstudio d (.resp status body) = [d])
    ∧ (∀ d, list_models_lmstudio d (.resp 200 ⟨none, none⟩) = [d])
    ∧ (list_models_lmstudio (("llama3").data)
        (.resp 200 ⟨some [.obj none none (some (("a").data)),
                          .obj (some (("b").data)) none none], none⟩)
        = [("a").data, ("b").data])
    ∧ (list_models_lmstudio (("llama3").data)
        (.resp 200 ⟨none, some [.obj (some (("c").data)) none none]⟩)
        = [("c").data])
    ∧ (∀ d r, list_models_lmstudio d r ≠ [])
    ∧ (∀ d, list_models_other d = [d]) := by
  refine ⟨fun d msg => rfl, fun d => rfl, ?_, by decide, fun d => rfl,
    fun d msg => rfl, ?_, fun d => rfl, by decide, by decide, ?_,
    fun d => rfl⟩
  · intro d r
    cases r with
    | exn m => simp [list_models_ollama]
    | ok o =>
      cases o with
      | none => simp [list_models_ollama]
      | some es =>
        simp only [list_models_ollama]
        split
        · simp
        · next h => exact h
  · intro d status body hst
    simp [list_models_lmstudio, hst]
  · intro d r
    cases r with
    | netErr => simp [list_models_lmstudio]
    | exn m => simp [list_models_lmstudio]
    | resp status body =>
      simp only [list_models_lmstudio]
      split
      · split
        · simp
        · next h => exact h
      · simp

/-- Witness for `C9_list_models_fallbacks` at a 404 status. -/
theorem C9_list_models_witness :
    list_models_lmstudio (("llama3").data) (.resp 404 ⟨none, none⟩)
      = [("llama3").data] :=
  C9_list_models_fallbacks.2.2.2.2.2.2.1 (("llama3").data) 404 ⟨none, none⟩
    (by decide)
